import Mathlib

/-!
Verification development for the adaptive-streaming core of the vvtk
volumetric-video player.

The development shallowly embeds:
* the `BufferManager` coordination loop of
  `src/vvplay_async_prefetch/buffer_manager.rs` as an explicit state machine
  processing a list of inbound `BufMsg` events;
* the buffer-occupancy bitrate selection and the main loop of
  `src/bin/vvdash.rs`;
* the per-partition extra-point-read computation of
  `AdaptiveManager::get_desired_point_cloud` in
  `src/render/wgpu/render_manager.rs`.

Machine integers (`u64`/`usize`) are modelled as `Nat`, with wrapping or
modular arithmetic made explicit exactly where the source performs it.
Fallible operations (`unwrap`, `assert!`, `unreachable!`) are modelled by an
explicit `aborted` flag on the step results.  Asynchronous channels carrying
decoded frames are modelled as the list of values the channel will still
yield; an empty list models a closed channel whose `recv` returns `None`.
-/

/-- Modelled from the spec: a camera pose (`CameraPosition` of
`render/wgpu/camera.rs`, not among the provided sources).  Its payload is
opaque to the coordinator: the buffer manager only stores poses, defaults
them, and tests their presence, so the pose is represented by an abstract
identifier. -/
structure CameraPosition where
  pose_id : Nat
deriving DecidableEq

instance : Inhabited CameraPosition := ⟨⟨0⟩⟩

/-- A decoded point-cloud frame, opaque to the coordinator; represented by an
abstract identifier. -/
abbrev PCFrame := Nat

/-- Modelled from the spec: `FrameRequest` of `render/wgpu/reader.rs` (not
among the provided sources): which frame, from whose viewpoint.
`frame_offset` is a `u64` index into the content's frame sequence. -/
structure FrameRequest where
  object_id : Nat
  frame_offset : Nat
  camera_pos : Option CameraPosition
deriving DecidableEq

/-- Modelled from the spec: `FetchRequest` of
`vvplay_async_prefetch/fetch_request.rs` (not among the provided sources):
a `FrameRequest` plus the buffer length at issue time. -/
structure FetchRequest where
  req : FrameRequest
  buffer_position : Nat
deriving DecidableEq

/-- Modelled from the spec: the lifecycle state of a buffer entry
(`FrameStatus` of `dash/buffer.rs`, not among the provided sources).
`ready remaining stream` holds the number of decoded frames still to be
consumed and the stream (channel) delivering them. -/
inductive FrameStatus where
  | fetching : FrameStatus
  | decoding : FrameStatus
  | ready : Nat → List PCFrame → FrameStatus
deriving DecidableEq

/-- Modelled from the spec: one buffer entry (`dash/buffer.rs`): a request
tagged with its lifecycle state. -/
structure BufferEntry where
  req : FrameRequest
  state : FrameStatus
deriving DecidableEq

/-- Modelled from the spec: the `Buffer` of `dash/buffer.rs` (not among the
provided sources): a double-ended ordered sequence of entries with a fixed
capacity, front = soonest to render, back = most recently prefetched.
Entries are matched by `frame_offset`. -/
structure Buffer where
  entries : List BufferEntry
  capacity : Nat
deriving DecidableEq

namespace Buffer

def len (b : Buffer) : Nat := b.entries.length

def is_empty (b : Buffer) : Bool := b.entries.isEmpty

def is_full (b : Buffer) : Bool := b.capacity ≤ b.len

def front? (b : Buffer) : Option BufferEntry := b.entries.head?

def back? (b : Buffer) : Option BufferEntry := b.entries.getLast?

def pop_front (b : Buffer) : Buffer := { b with entries := b.entries.tail }

def push_front (b : Buffer) (e : BufferEntry) : Buffer :=
  { b with entries := e :: b.entries }

/-- Modelled from the spec: `Buffer::add` appends a new `Fetching` entry for
the given request at the back. -/
def add (b : Buffer) (req : FrameRequest) : Buffer :=
  { b with entries := b.entries ++ [⟨req, FrameStatus.fetching⟩] }

def updateStateList (off : Nat) (st : FrameStatus) :
    List BufferEntry → List BufferEntry
  | [] => []
  | e :: es =>
    if e.req.frame_offset = off then { e with state := st } :: es
    else e :: updateStateList off st es

/-- Modelled from the spec: `Buffer::update_state` transitions the entry
matching the request's `frame_offset` to the given state. -/
def update_state (b : Buffer) (req : FrameRequest) (st : FrameStatus) : Buffer :=
  { b with entries := updateStateList req.frame_offset st b.entries }

def updateList (off : Nat) (newReq : FrameRequest) (st : FrameStatus) :
    List BufferEntry → List BufferEntry
  | [] => []
  | e :: es =>
    if e.req.frame_offset = off then ⟨newReq, st⟩ :: es
    else e :: updateList off newReq st es

/-- Modelled from the spec: `Buffer::update` caches a decoded segment into
the entry created when its fetch was issued: the entry matching the original
request's `frame_offset` gets the (possibly advanced) request and the new
state. -/
def update (b : Buffer) (orig newReq : FrameRequest) (st : FrameStatus) : Buffer :=
  { b with entries := updateList orig.frame_offset newReq st b.entries }

end Buffer

/-- Inbound messages of the buffer manager's command channel (`BufMsg` of
`lib.rs`; the variants are those consumed in `BufferManager::run`).  The
decoder's segment result carries the metadata request and the stream of
decoded frames. -/
inductive BufMsg where
  | frameRequest : FrameRequest → BufMsg
  | fetchDone : FrameRequest → BufMsg
  | pointCloud : FrameRequest → List PCFrame → BufMsg
deriving DecidableEq

/-- The immutable run parameters of `BufferManager::run`: the manager's
`total_frames` and `segment_size` fields, the viewport predictor (modelled as
a function of the pose history fed to it so far), the `original_position`
fallback pose, the optional pre-recorded camera trace (pose by index), and
whether a camera trace is being recorded. -/
structure RunCfg where
  total_frames : Nat
  segment_size : Nat
  predict : List CameraPosition → Option CameraPosition
  original_position : CameraPosition
  camera_trace : Option (Nat → CameraPosition)
  record_trace : Bool

/-- The mutable state of `BufferManager::run`: the manager's
`frame_to_answer` and `buffer` fields, the loop-local
`is_desired_buffer_level_reached` and `last_req` variables, and the state of
the external pose collaborators (predictor history, camera-trace cursor,
recorded trace). -/
structure BMState where
  frame_to_answer : Option FrameRequest
  buffer : Buffer
  is_desired_buffer_level_reached : Bool
  last_req : Option FrameRequest
  pred_history : List CameraPosition
  trace_idx : Nat
  recorded : List CameraPosition
deriving DecidableEq

/-- Result of one handler: the successor state, the fetch requests sent on
the fetch channel, the replies sent on the renderer reply channel, and
whether the handler panicked (`assert!`/`unwrap`/`unreachable!`). -/
structure HandleOut where
  state : BMState
  fetches : List FetchRequest
  replies : List (FrameRequest × PCFrame)
  aborted : Bool
deriving DecidableEq

/-- `BufferManager::get_next_frame_req`: the request that follows `req` by
`segment_size`, wrapping modulo `total_frames`. -/
def get_next_frame_req (cfg : RunCfg) (req : FrameRequest) : FrameRequest :=
  { req with frame_offset := (req.frame_offset + cfg.segment_size) % cfg.total_frames }

/-- `BufferManager::prefetch_frame`: asserts the supplied pose is present
(panic otherwise), takes the request at the back of the buffer
(`back().unwrap()`, panic when the buffer is empty), substitutes the pose,
sends a fetch request for the following frame and appends a matching
`Fetching` entry. -/
def prefetch_frame (cfg : RunCfg) (s : BMState) (camera_pos : Option CameraPosition) :
    HandleOut :=
  match camera_pos with
  | none => ⟨s, [], [], true⟩
  | some c =>
    match s.buffer.back? with
    | none => ⟨s, [], [], true⟩
    | some e =>
      let lastReq : FrameRequest := { e.req with camera_pos := some c }
      let req := get_next_frame_req cfg lastReq
      ⟨{ s with buffer := s.buffer.add req }, [⟨req, s.buffer.len⟩], [], false⟩

/-- `BufferManager::prefetch_frame_with_request`: like `prefetch_frame` but
prefetching the successor of the supplied request; the asserted pose is not
substituted into the request. -/
def prefetch_frame_with_request (cfg : RunCfg) (s : BMState)
    (camera_pos : Option CameraPosition) (last_req : FrameRequest) : HandleOut :=
  match camera_pos with
  | none => ⟨s, [], [], true⟩
  | some _ =>
    let req := get_next_frame_req cfg last_req
    ⟨{ s with buffer := s.buffer.add req }, [⟨req, s.buffer.len⟩], [], false⟩

/-- The prefetch policy evaluated at the top of every iteration of
`BufferManager::run` before blocking: prefetch the successor of the back
entry when the buffer is neither full nor empty, re-seed from `last_req`
when the buffer is empty and a last served request is known. -/
def prefetch_policy (cfg : RunCfg) (s : BMState) : HandleOut :=
  if !s.buffer.is_full && !s.buffer.is_empty then
    prefetch_frame cfg s (some default)
  else if s.buffer.is_empty && s.last_req.isSome then
    match s.last_req with
    | some r => prefetch_frame_with_request cfg s (some default) r
    | none => ⟨s, [], [], false⟩
  else ⟨s, [], [], false⟩

/-- Camera-pose resolution at the start of the `FrameRequest` handler:
record the observed pose when a trace is being recorded; then either
override the pose with the camera trace's next recorded pose, or feed the
observed pose (defaulting to `original_position`) to the viewport predictor
and use its prediction. -/
def pose_resolve (cfg : RunCfg) (s : BMState) (req0 : FrameRequest) :
    BMState × FrameRequest :=
  let s1 :=
    if cfg.record_trace && req0.camera_pos.isSome then
      { s with recorded := s.recorded ++ [req0.camera_pos.getD default] }
    else s
  match cfg.camera_trace with
  | some f =>
    ({ s1 with trace_idx := s1.trace_idx + 1 },
     { req0 with camera_pos := some (f s1.trace_idx) })
  | none =>
    let hist := s1.pred_history ++ [req0.camera_pos.getD cfg.original_position]
    ({ s1 with pred_history := hist }, { req0 with camera_pos := cfg.predict hist })

/-- The cache-miss path of the `FrameRequest` handler: send a fetch request
for the renderer's frame, remember it as the pending answer, and append a
`Fetching` entry (with no capacity check). -/
def frame_request_miss (s : BMState) (rreq : FrameRequest) : HandleOut :=
  ⟨{ s with frame_to_answer := some rreq, buffer := s.buffer.add rreq },
   [⟨rreq, s.buffer.len⟩], [], false⟩

/-- The `BufMsg::FrameRequest` arm of `BufferManager::run`: resolve the
pose, then match the buffer front by `frame_offset`; on a `Ready` front pop
one decoded frame, reply, decrement the remaining count, and either reinsert
the entry or (unless the desired buffer level was reached) prefetch; on a
`Fetching`/`Decoding` front record the pending answer; otherwise fall to the
cache-miss path. -/
def handle_frame_request (cfg : RunCfg) (s0 : BMState) (req0 : FrameRequest) :
    HandleOut :=
  let sr := pose_resolve cfg s0 req0
  let s := sr.1
  let rreq := sr.2
  match s.buffer.front? with
  | some front =>
    if front.req.frame_offset = rreq.frame_offset then
      let s1 := { s with buffer := s.buffer.pop_front }
      match front.state with
      | FrameStatus.fetching =>
        ⟨{ s1 with frame_to_answer := some rreq,
                   buffer := s1.buffer.push_front front }, [], [], false⟩
      | FrameStatus.decoding =>
        ⟨{ s1 with frame_to_answer := some rreq,
                   buffer := s1.buffer.push_front front }, [], [], false⟩
      | FrameStatus.ready remaining_frames stream =>
        match stream with
        | [] => ⟨s1, [], [], true⟩
        | pc :: rest =>
          let original_camera_pos := rreq.camera_pos
          let rreq2 :=
            if cfg.camera_trace.isNone then { rreq with camera_pos := none }
            else rreq
          let s2 := { s1 with frame_to_answer := none }
          let front2 : BufferEntry :=
            ⟨{ front.req with frame_offset := front.req.frame_offset + 1 },
             FrameStatus.ready (remaining_frames - 1) rest⟩
          if 1 < remaining_frames then
            ⟨{ s2 with buffer := s2.buffer.push_front front2 }, [],
             [(rreq2, pc)], false⟩
          else if !s2.is_desired_buffer_level_reached then
            let p := prefetch_frame cfg s2 original_camera_pos
            ⟨p.state, p.fetches, [(rreq2, pc)], p.aborted⟩
          else ⟨s2, [], [(rreq2, pc)], false⟩
    else frame_request_miss s rreq
  | none => frame_request_miss s rreq

/-- The `BufMsg::FetchDone` arm of `BufferManager::run`: transition the
matching entry to `Decoding`, then prefetch when the buffer is not full,
else record that the desired buffer level was reached. -/
def handle_fetch_done (cfg : RunCfg) (s : BMState) (req : FrameRequest) :
    HandleOut :=
  let s1 := { s with buffer := s.buffer.update_state req FrameStatus.decoding }
  if !s1.buffer.is_full then prefetch_frame cfg s1 req.camera_pos
  else ⟨{ s1 with is_desired_buffer_level_reached := true }, [], [], false⟩

/-- The `BufMsg::PointCloud` arm of `BufferManager::run`: when the segment's
starting offset matches the pending renderer answer, consume its first frame
(`recv().unwrap()`, panic when the stream is closed) and forward it to the
renderer, advancing the offset and decrementing the remaining count; then
cache the segment into the buffer as `Ready` and record the original request
for cold-start recovery. -/
def handle_point_cloud (cfg : RunCfg) (s : BMState) (metadata0 : FrameRequest)
    (stream0 : List PCFrame) : HandleOut :=
  let orig_metadata := metadata0
  match s.frame_to_answer with
  | some fta =>
    if metadata0.frame_offset = fta.frame_offset then
      match stream0 with
      | [] => ⟨s, [], [], true⟩
      | pc :: rest =>
        let metadata := { metadata0 with frame_offset := metadata0.frame_offset + 1 }
        let s1 := { s with frame_to_answer := none }
        ⟨{ s1 with
             buffer := s1.buffer.update orig_metadata metadata
               (FrameStatus.ready (cfg.segment_size - 1) rest),
             last_req := some orig_metadata }, [], [(fta, pc)], false⟩
    else
      ⟨{ s with
           buffer := s.buffer.update orig_metadata metadata0
             (FrameStatus.ready cfg.segment_size stream0),
           last_req := some orig_metadata }, [], [], false⟩
  | none =>
    ⟨{ s with
         buffer := s.buffer.update orig_metadata metadata0
           (FrameStatus.ready cfg.segment_size stream0),
         last_req := some orig_metadata }, [], [], false⟩

/-- Dispatch of one inbound message. -/
def handle_msg (cfg : RunCfg) (s : BMState) : BufMsg → HandleOut
  | BufMsg.frameRequest req => handle_frame_request cfg s req
  | BufMsg.fetchDone req => handle_fetch_done cfg s req
  | BufMsg.pointCloud metadata stream => handle_point_cloud cfg s metadata stream

/-- Accumulated observation of a run of `BufferManager::run` over a list of
inbound messages: final state, all fetch requests and renderer replies in
emission order, whether the task panicked, the offsets of the renderer
requests processed, whether every renderer request arrived while no answer
was pending (`cadenced`), and whether the buffer was ever found empty at a
renderer request after the first reply (`drained`). -/
structure Outcome where
  state : BMState
  fetches : List FetchRequest
  replies : List (FrameRequest × PCFrame)
  reqsSeen : List Nat
  aborted : Bool
  cadenced : Bool
  drained : Bool
deriving DecidableEq

/-- One iteration of the `BufferManager::run` loop on an accumulated
outcome: apply the prefetch policy, then handle the next inbound message.
After a panic the remaining messages are not processed. -/
def step_outcome (cfg : RunCfg) (o : Outcome) (msg : BufMsg) : Outcome :=
  if o.aborted then o
  else
    let p := prefetch_policy cfg o.state
    if p.aborted then
      { o with state := p.state, fetches := o.fetches ++ p.fetches, aborted := true }
    else
      let o1 : Outcome := { o with state := p.state, fetches := o.fetches ++ p.fetches }
      match msg with
      | BufMsg.frameRequest req =>
        let h := handle_frame_request cfg o1.state req
        { o1 with
            state := h.state,
            fetches := o1.fetches ++ h.fetches,
            replies := o1.replies ++ h.replies,
            reqsSeen := o1.reqsSeen ++ [req.frame_offset],
            aborted := h.aborted,
            cadenced := o1.cadenced && o1.state.frame_to_answer.isNone,
            drained := o1.drained ||
              (o1.state.buffer.is_empty && !o1.replies.isEmpty) }
      | BufMsg.fetchDone req =>
        let h := handle_fetch_done cfg o1.state req
        { o1 with
            state := h.state,
            fetches := o1.fetches ++ h.fetches,
            replies := o1.replies ++ h.replies,
            aborted := h.aborted }
      | BufMsg.pointCloud metadata stream =>
        let h := handle_point_cloud cfg o1.state metadata stream
        { o1 with
            state := h.state,
            fetches := o1.fetches ++ h.fetches,
            replies := o1.replies ++ h.replies,
            aborted := h.aborted }

/-- The state of `BufferManager::run` at entry: empty buffer of the given
capacity, no pending answer, desired level not reached, no last request. -/
def init_state (buffer_size : Nat) : BMState :=
  ⟨none, ⟨[], buffer_size⟩, false, none, [], 0, []⟩

/-- Initial accumulated outcome. -/
def init_outcome (buffer_size : Nat) : Outcome :=
  ⟨init_state buffer_size, [], [], [], false, true, false⟩

/-- Run the `BufferManager::run` loop over a list of inbound messages. -/
def process_trace (cfg : RunCfg) (o : Outcome) (trace : List BufMsg) : Outcome :=
  trace.foldl (step_outcome cfg) o

/-- Frame offsets of a reply list, in emission order. -/
def replyOffsets (l : List (FrameRequest × PCFrame)) : List Nat :=
  l.map (fun p => p.1.frame_offset)

/-! ### vvdash (`src/bin/vvdash.rs`) -/

/-- The bitrate ladder built in `vvdash::main`: one encoded bitrate per
quality tier R01..R05, ascending. -/
def available_bitrates : List Nat := [4641, 7975, 14050, 25974, 46778]

/-- The buffer-occupancy bitrate selection of the `"abr"` branch of
`vvdash::main`: the if-chain on the bandwidth sample with cutoffs
4641.836, 7975.9168, 14050.2664, 25974.38, returning the quality tier index
(0 = R01 .. 4 = R05).  Bandwidth is an `f32` in the source; it is modelled
as a rational, which agrees with the source wherever the comparisons are not
within one `f32` rounding error of a cutoff. -/
def abr_select_quality (bandwidth : ℚ) : Nat :=
  if bandwidth < 4641.836 then 0
  else if bandwidth < 7975.9168 then 1
  else if bandwidth < 14050.2664 then 2
  else if bandwidth < 25974.38 then 3
  else 4

/-- The lower cutoff of each tier's selection bracket in
`abr_select_quality`: tier `i` is selected exactly when the bandwidth lies
in `[abr_lower_cutoff i, abr_lower_cutoff (i+1))` (unbounded above for the
top tier). -/
def abr_lower_cutoff : Nat → ℚ
  | 0 => 0
  | 1 => 4641.836
  | 2 => 7975.9168
  | 3 => 14050.2664
  | _ => 25974.38

/-- One iteration of the body of the `while count < total_frames` loop of
`vvdash::main`, restricted to its effect on `count`: the `"abr"` branch adds
30; every other branch (including `"quetra"`) leaves `count` unchanged. -/
def vvdash_loop_body (algorithm : String) (count : Nat) : Nat :=
  if algorithm = "abr" then count + 30 else count

/-- The `while count < total_frames` loop of `vvdash::main`, with explicit
fuel: `none` means the loop was still running when the fuel ran out. -/
def vvdash_loop (algorithm : String) (total_frames : Nat) :
    Nat → Nat → Option Nat
  | _, 0 => none
  | count, fuel + 1 =>
    if count < total_frames then
      vvdash_loop algorithm total_frames (vvdash_loop_body algorithm count) fuel
    else some count

/-! ### AdaptiveManager (`src/render/wgpu/render_manager.rs`) -/

/-- The modulus of `usize` arithmetic on the 64-bit targets the player runs
on. -/
def USIZE_MOD : Nat := 2 ^ 64

/-- Wrapping `usize` subtraction, the release-build semantics of `a - b` in
Rust (debug builds panic on overflow instead). -/
def usize_sub (a b : Nat) : Nat := (a + (USIZE_MOD - b % USIZE_MOD)) % USIZE_MOD

/-- The per-partition extra-read count computed in
`AdaptiveManager::get_desired_point_cloud`:
`(num - base_point_num[segment]).min(extra_point_num[segment])` with `usize`
arithmetic, where `num` is the desired point count returned by the
resolution controller.  The source then reads exactly this many points from
the partition's dedicated reader when it is positive, and skips the read
when it is zero. -/
def to_read (num base extra : Nat) : Nat :=
  min (usize_sub num base) extra

/-- The numbers of extra points read per partition by
`AdaptiveManager::get_desired_point_cloud`, as a function of the desired
per-partition counts and the metadata's `base_point_num` and
`additional_point_num` rows for the frame. -/
def extra_points_read : List Nat → List Nat → List Nat → List Nat
  | num :: ns, base :: bs, extra :: es =>
    to_read num base extra :: extra_points_read ns bs es
  | _, _, _ => []

/-! ### Rate-adaptation and vvdash-loop claims -/

/-- C5: with the bitrate ladder [4641, 7975, 14050, 25974, 46778], the
buffer-occupancy heuristic of `vvdash::main` selects tier index 1 (bitrate
7975) for a throughput sample of 5000 and tier index 4 (bitrate 46778) for a
throughput sample of 50000. -/
theorem abr_ladder_scenario :
    abr_select_quality 5000 = 1 ∧ available_bitrates[1]? = some 7975 ∧
    abr_select_quality 50000 = 4 ∧ available_bitrates[4]? = some 46778 := by
  refine ⟨?_, rfl, ?_, rfl⟩ <;> norm_num [abr_select_quality]

/-- C4 counterexample: at throughput estimate 5000 the heuristic selects
tier 1, whose encoded bitrate 7975 is greater than the estimate — so the
selection is not "the highest tier whose encoded bitrate does not exceed the
estimate", and the selected bitrate can exceed the estimate. -/
theorem abr_selected_bitrate_exceeds_estimate :
    abr_select_quality 5000 = 1 ∧ available_bitrates[1]? = some 7975 ∧
    ¬ ((7975 : ℚ) ≤ 5000) ∧ available_bitrates[0]? = some 4641 ∧
    ((4641 : ℚ) ≤ 5000) := by
  refine ⟨?_, rfl, by norm_num, rfl, by norm_num⟩
  norm_num [abr_select_quality]

/-- C4 amended: the heuristic selects the tier whose half-open cutoff
bracket contains the estimate — the highest tier whose lower cutoff does not
exceed the estimate; the selected tier's lower cutoff never exceeds the
estimate, but (per the counterexample) the selected tier's own encoded
bitrate may. -/
theorem abr_selects_enclosing_bracket (bandwidth : ℚ) (h : 0 ≤ bandwidth) :
    abr_lower_cutoff (abr_select_quality bandwidth) ≤ bandwidth ∧
    (abr_select_quality bandwidth < 4 →
      bandwidth < abr_lower_cutoff (abr_select_quality bandwidth + 1)) ∧
    abr_select_quality bandwidth ≤ 4 := by
  unfold abr_select_quality
  split_ifs with h1 h2 h3 h4
  · exact ⟨by simpa [abr_lower_cutoff] using h,
      fun _ => by simpa [abr_lower_cutoff] using h1, by norm_num⟩
  · exact ⟨by simp only [abr_lower_cutoff]; linarith,
      fun _ => by simpa [abr_lower_cutoff] using h2, by norm_num⟩
  · exact ⟨by simp only [abr_lower_cutoff]; linarith,
      fun _ => by simpa [abr_lower_cutoff] using h3, by norm_num⟩
  · exact ⟨by simp only [abr_lower_cutoff]; linarith,
      fun _ => by simpa [abr_lower_cutoff] using h4, by norm_num⟩
  · exact ⟨by simp only [abr_lower_cutoff]; linarith,
      fun hlt => absurd hlt (by norm_num), by norm_num⟩

/-- Witness for `abr_selects_enclosing_bracket` at a throughput of 5000. -/
theorem abr_selects_enclosing_bracket_witness :
    (0 : ℚ) ≤ 5000 ∧
    (abr_lower_cutoff (abr_select_quality 5000) ≤ 5000 ∧
      (abr_select_quality 5000 < 4 →
        (5000 : ℚ) < abr_lower_cutoff (abr_select_quality 5000 + 1)) ∧
      abr_select_quality 5000 ≤ 4) :=
  ⟨by norm_num, abr_selects_enclosing_bracket 5000 (by norm_num)⟩

/-- C10: the `while count < total_frames` loop of `vvdash::main` increments
`count` only in the `"abr"` branch; for every other algorithm value
(including `"quetra"`) the body leaves `count` unchanged, so whenever
`total_frames > 0` the loop never terminates (no amount of fuel makes it
return). -/
theorem vvdash_non_abr_loop_diverges (algorithm : String) (total_frames : Nat)
    (halg : algorithm ≠ "abr") (htot : 0 < total_frames) :
    (∀ count, vvdash_loop_body algorithm count = count) ∧
    (∀ fuel, vvdash_loop algorithm total_frames 0 fuel = none) := by
  have hbody : ∀ count, vvdash_loop_body algorithm count = count := by
    intro count; unfold vvdash_loop_body; rw [if_neg halg]
  refine ⟨hbody, ?_⟩
  have key : ∀ fuel count, count < total_frames →
      vvdash_loop algorithm total_frames count fuel = none := by
    intro fuel
    induction fuel with
    | zero => intro count _; rfl
    | succ n ih =>
      intro count h
      unfold vvdash_loop
      rw [if_pos h, hbody]
      exact ih count h
  exact fun fuel => key fuel 0 htot

/-- Witness for `vvdash_non_abr_loop_diverges` with the `"quetra"` algorithm
and 30 total frames. -/
theorem vvdash_non_abr_loop_diverges_witness :
    "quetra" ≠ "abr" ∧ 0 < 30 ∧
    ((∀ count, vvdash_loop_body "quetra" count = count) ∧
      (∀ fuel, vvdash_loop "quetra" 30 0 fuel = none)) :=
  ⟨by decide, by decide,
    vvdash_non_abr_loop_diverges "quetra" 30 (by decide) (by decide)⟩

/-! ### AdaptiveManager extra-read claims -/

/-- C6 counterexample: with `base_point_num = [100, 100]`,
`additional_point_num = [50, 50]` and desired counts `[120, 80]`, the
extra-read computation of `AdaptiveManager::get_desired_point_cloud` reads
20 points for partition 0 but, because the `usize` subtraction `80 - 100`
wraps, 50 points (not 0) for partition 1, although partition 1's desired
count is below its base count. -/
theorem extra_reads_underflow_counterexample :
    extra_points_read [120, 80] [100, 100] [50, 50] = [20, 50] ∧
    (50 : Nat) ≠ 0 := by
  constructor
  · decide
  · decide

/-- C6 amended: for every partition whose desired count is at least its base
count, exactly `min (desired - base) additional` extra points are read — 0
when desired equals base (so 20 for partition 0 of the scenario); when the
desired count is below the base count, the `usize` subtraction wraps
(release builds) and `additional_point_num` points are read instead of 0
(debug builds panic on the overflow). -/
theorem extra_reads_min_formula (num base extra : Nat)
    (hge : base ≤ num) (hlt : num < USIZE_MOD) :
    to_read num base extra = min (num - base) extra ∧
    to_read base base extra = 0 ∧
    (∀ n b e : Nat, n < b → b ≤ USIZE_MOD → e ≤ USIZE_MOD - (b - n) →
      to_read n b e = e) := by
  have hmod : USIZE_MOD = 18446744073709551616 := by norm_num [USIZE_MOD]
  rw [hmod] at hlt
  refine ⟨?_, ?_, ?_⟩
  · unfold to_read usize_sub
    rw [hmod]
    congr 1
    have hb : base % 18446744073709551616 = base := Nat.mod_eq_of_lt (by omega)
    rw [hb]
    omega
  · unfold to_read usize_sub
    rw [hmod]
    have hb : base % 18446744073709551616 = base := Nat.mod_eq_of_lt (by omega)
    rw [hb]
    have hz : (base + (18446744073709551616 - base)) % 18446744073709551616 = 0 := by
      have h1 : base + (18446744073709551616 - base) = 18446744073709551616 := by
        omega
      rw [h1]
    rw [hz]
    simp
  · intro n b e hn hb he
    unfold to_read usize_sub
    rw [hmod] at hb he ⊢
    have hbm : b % 18446744073709551616 = b ∨ b = 18446744073709551616 := by
      rcases Nat.lt_or_ge b 18446744073709551616 with hc | hc
      · exact Or.inl (Nat.mod_eq_of_lt hc)
      · exact Or.inr (by omega)
    rcases hbm with hc | hc
    · rw [hc]
      have hv : (n + (18446744073709551616 - b)) % 18446744073709551616 =
          n + (18446744073709551616 - b) := Nat.mod_eq_of_lt (by omega)
      rw [hv]
      exact min_eq_right (by omega)
    · subst hc
      have hb0 : (18446744073709551616 : Nat) % 18446744073709551616 = 0 := by omega
      rw [hb0]
      have hv : (n + (18446744073709551616 - 0)) % 18446744073709551616 = n := by
        omega
      rw [hv]
      exact min_eq_right (by omega)

/-- Witness for `extra_reads_min_formula` at the scenario's partition 0
(desired 120, base 100, additional 50). -/
theorem extra_reads_min_formula_witness :
    100 ≤ 120 ∧ 120 < USIZE_MOD ∧
    (to_read 120 100 50 = min (120 - 100) 50 ∧
      to_read 100 100 50 = 0 ∧
      (∀ n b e : Nat, n < b → b ≤ USIZE_MOD → e ≤ USIZE_MOD - (b - n) →
        to_read n b e = e)) :=
  ⟨by norm_num, by norm_num [USIZE_MOD],
    extra_reads_min_formula 120 100 50 (by norm_num) (by norm_num [USIZE_MOD])⟩

/-! ### pose_resolve helper lemmas -/

theorem pose_resolve_buffer (cfg : RunCfg) (s : BMState) (req0 : FrameRequest) :
    (pose_resolve cfg s req0).1.buffer = s.buffer := by
  unfold pose_resolve
  cases cfg.camera_trace <;> dsimp only <;> split <;> rfl

theorem pose_resolve_fta (cfg : RunCfg) (s : BMState) (req0 : FrameRequest) :
    (pose_resolve cfg s req0).1.frame_to_answer = s.frame_to_answer := by
  unfold pose_resolve
  cases cfg.camera_trace <;> dsimp only <;> split <;> rfl

theorem pose_resolve_desired (cfg : RunCfg) (s : BMState) (req0 : FrameRequest) :
    (pose_resolve cfg s req0).1.is_desired_buffer_level_reached =
      s.is_desired_buffer_level_reached := by
  unfold pose_resolve
  cases cfg.camera_trace <;> dsimp only <;> split <;> rfl

theorem pose_resolve_last_req (cfg : RunCfg) (s : BMState) (req0 : FrameRequest) :
    (pose_resolve cfg s req0).1.last_req = s.last_req := by
  unfold pose_resolve
  cases cfg.camera_trace <;> dsimp only <;> split <;> rfl

theorem pose_resolve_offset (cfg : RunCfg) (s : BMState) (req0 : FrameRequest) :
    (pose_resolve cfg s req0).2.frame_offset = req0.frame_offset := by
  unfold pose_resolve
  cases cfg.camera_trace <;> dsimp only

theorem pose_resolve_none_req (cfg : RunCfg) (s : BMState) (req0 : FrameRequest)
    (h : cfg.camera_trace = none) :
    (pose_resolve cfg s req0).2 =
      { req0 with camera_pos :=
          cfg.predict (s.pred_history ++ [req0.camera_pos.getD cfg.original_position]) } := by
  unfold pose_resolve
  rw [h]
  dsimp only
  split <;> rfl

theorem ready_front_empty_stream_aborts (cfg : RunCfg) (s : BMState)
    (r req0 : FrameRequest) (n : Nat) (rest : List BufferEntry)
    (hfront : s.buffer.entries = ⟨r, FrameStatus.ready n []⟩ :: rest)
    (hmatch : r.frame_offset = req0.frame_offset) (_hn : 0 < n) :
    (handle_frame_request cfg s req0).aborted = true ∧
    (handle_frame_request cfg s req0).replies = [] := by
  unfold handle_frame_request
  simp only [Buffer.front?, pose_resolve_buffer, hfront, List.head?,
    pose_resolve_offset, hmatch]
  simp

theorem prefetch_assert_and_predict_none_panics :
    (∀ (cfg : RunCfg) (s : BMState), (prefetch_frame cfg s none).aborted = true) ∧
    (∀ (cfg : RunCfg) (s : BMState) (r : FrameRequest),
      (prefetch_frame_with_request cfg s none r).aborted = true) ∧
    (∀ (cfg : RunCfg) (s : BMState) (req0 r : FrameRequest)
      (rest : List BufferEntry) (pc : PCFrame) (tl : List PCFrame),
      cfg.camera_trace = none →
      cfg.predict (s.pred_history ++ [req0.camera_pos.getD cfg.original_position]) =
        none →
      s.buffer.entries = ⟨r, FrameStatus.ready 1 (pc :: tl)⟩ :: rest →
      r.frame_offset = req0.frame_offset →
      s.is_desired_buffer_level_reached = false →
      (handle_frame_request cfg s req0).aborted = true) := by
  refine ⟨fun cfg s => rfl, fun cfg s r => rfl, ?_⟩
  intro cfg s req0 r rest pc tl htrace hpred hfront hmatch hdes
  unfold handle_frame_request
  simp only [Buffer.front?, pose_resolve_buffer, hfront, List.head?,
    pose_resolve_offset, hmatch]
  simp only [pose_resolve_none_req cfg s req0 htrace, hpred, htrace,
    pose_resolve_desired, hdes]
  simp [prefetch_frame]

theorem prefetch_policy_spec (cfg : RunCfg) (s : BMState) :
    (∀ e nreq, s.buffer.is_full = false → s.buffer.is_empty = false →
      s.buffer.back? = some e →
      nreq = get_next_frame_req cfg { e.req with camera_pos := some default } →
      prefetch_policy cfg s =
        ⟨{ s with buffer := s.buffer.add nreq }, [⟨nreq, s.buffer.len⟩], [], false⟩) ∧
    (∀ r nreq, s.buffer.is_empty = true → s.last_req = some r →
      nreq = get_next_frame_req cfg r →
      prefetch_policy cfg s =
        ⟨{ s with buffer := s.buffer.add nreq }, [⟨nreq, s.buffer.len⟩], [], false⟩) ∧
    (∀ req, (get_next_frame_req cfg req).frame_offset =
      (req.frame_offset + cfg.segment_size) % cfg.total_frames) := by
  refine ⟨?_, ?_, fun req => rfl⟩
  · intro e nreq hfull hempty hback hreq
    subst hreq
    unfold prefetch_policy
    rw [hfull, hempty]
    simp only [Bool.not_false, Bool.and_self, if_pos]
    unfold prefetch_frame
    rw [hback]
  · intro r nreq hempty hlast hreq
    subst hreq
    unfold prefetch_policy
    rw [hempty, hlast]
    simp [prefetch_frame_with_request]
    exact hlast

def w7cfg : RunCfg := ⟨30, 1, fun _ => some ⟨3⟩, ⟨1⟩, none, false⟩
def w7req : FrameRequest := ⟨0, 5, none⟩
def w7s1 : BMState :=
  ⟨none, ⟨[⟨w7req, FrameStatus.fetching⟩], 2⟩, false, none, [], 0, []⟩
def w7s2 : BMState := ⟨none, ⟨[], 2⟩, false, some w7req, [], 0, []⟩
def w7next1 : FrameRequest :=
  get_next_frame_req w7cfg { w7req with camera_pos := some default }
def w7next2 : FrameRequest := get_next_frame_req w7cfg w7req

theorem prefetch_policy_spec_witness :
    (prefetch_policy w7cfg w7s1 =
      ⟨{ w7s1 with buffer := w7s1.buffer.add w7next1 },
       [⟨w7next1, w7s1.buffer.len⟩], [], false⟩) ∧
    (prefetch_policy w7cfg w7s2 =
      ⟨{ w7s2 with buffer := w7s2.buffer.add w7next2 },
       [⟨w7next2, w7s2.buffer.len⟩], [], false⟩) :=
  ⟨(prefetch_policy_spec w7cfg w7s1).1 ⟨w7req, FrameStatus.fetching⟩ w7next1
      rfl rfl rfl rfl,
   (prefetch_policy_spec w7cfg w7s2).2.1 w7req w7next2 rfl rfl rfl⟩

def w8req : FrameRequest := ⟨0, 5, none⟩
def w8s : BMState :=
  ⟨none, ⟨[⟨w8req, FrameStatus.ready 2 []⟩], 4⟩, false, none, [], 0, []⟩

theorem ready_front_empty_stream_aborts_witness :
    w8s.buffer.entries = [⟨w8req, FrameStatus.ready 2 []⟩] ∧ 0 < 2 ∧
    (handle_frame_request w7cfg w8s w8req).aborted = true ∧
    (handle_frame_request w7cfg w8s w8req).replies = [] :=
  ⟨rfl, by decide,
    (ready_front_empty_stream_aborts w7cfg w8s w8req w8req 2 [] rfl rfl
      (by decide)).1,
    (ready_front_empty_stream_aborts w7cfg w8s w8req w8req 2 [] rfl rfl
      (by decide)).2⟩

def w9cfg : RunCfg := ⟨30, 1, fun _ => none, ⟨1⟩, none, false⟩
def w9s : BMState :=
  ⟨none, ⟨[⟨w8req, FrameStatus.ready 1 [42]⟩], 4⟩, false, none, [], 0, []⟩

theorem prefetch_assert_and_predict_none_panics_witness :
    w9cfg.camera_trace = none ∧
    w9cfg.predict (w9s.pred_history ++
      [w8req.camera_pos.getD w9cfg.original_position]) = none ∧
    w9s.buffer.entries = [⟨w8req, FrameStatus.ready 1 [42]⟩] ∧
    w9s.is_desired_buffer_level_reached = false ∧
    (handle_frame_request w9cfg w9s w8req).aborted = true :=
  ⟨rfl, rfl, rfl, rfl,
    prefetch_assert_and_predict_none_panics.2.2 w9cfg w9s w8req w8req [] 42 []
      rfl rfl rfl rfl rfl⟩

/-! ### Buffer length lemmas -/

theorem Buffer.len_add (b : Buffer) (r : FrameRequest) : (b.add r).len = b.len + 1 := by
  simp [Buffer.add, Buffer.len]

theorem Buffer.updateStateList_length (off : Nat) (st : FrameStatus)
    (l : List BufferEntry) : (Buffer.updateStateList off st l).length = l.length := by
  induction l with
  | nil => rfl
  | cons e es ih =>
    unfold Buffer.updateStateList
    split <;> simp [ih]

theorem Buffer.len_update_state (b : Buffer) (req : FrameRequest)
    (st : FrameStatus) : (b.update_state req st).len = b.len := by
  simp [Buffer.update_state, Buffer.len, Buffer.updateStateList_length]

theorem Buffer.cap_update_state (b : Buffer) (req : FrameRequest)
    (st : FrameStatus) : (b.update_state req st).capacity = b.capacity := rfl

theorem prefetch_frame_len (cfg : RunCfg) (s : BMState)
    (cam : Option CameraPosition) :
    (prefetch_frame cfg s cam).state.buffer.len ≤ s.buffer.len + 1 := by
  unfold prefetch_frame
  cases cam with
  | none => simp
  | some c =>
    cases hb : s.buffer.back? with
    | none => simp
    | some e => simp [Buffer.len_add]

theorem Buffer.is_full_update_state (b : Buffer) (req : FrameRequest)
    (st : FrameStatus) : (b.update_state req st).is_full = b.is_full := by
  simp [Buffer.is_full, Buffer.update_state, Buffer.len,
    Buffer.updateStateList_length]

theorem not_full_lt (b : Buffer) (h : b.is_full = false) : b.len < b.capacity := by
  simp only [Buffer.is_full, decide_eq_false_iff_not, not_le] at h
  exact h

/-- C2 amended, part proved: the per-iteration prefetch policy and the
`FetchDone`-triggered prefetch preserve `len ≤ capacity` (for a positive
capacity), and neither issues any fetch when the buffer is full — prefetch
is never issued when the buffer is full. -/
theorem prefetch_paths_respect_capacity (cfg : RunCfg) (s : BMState)
    (hcap : 0 < s.buffer.capacity) (hlen : s.buffer.len ≤ s.buffer.capacity) :
    (prefetch_policy cfg s).state.buffer.len ≤ s.buffer.capacity ∧
    (∀ req, (handle_fetch_done cfg s req).state.buffer.len ≤ s.buffer.capacity) ∧
    (s.buffer.is_full = true → (prefetch_policy cfg s).fetches = []) ∧
    (s.buffer.is_full = true →
      ∀ req, (handle_fetch_done cfg s req).fetches = []) := by
  have hemp : s.buffer.is_empty = true → s.buffer.len = 0 := by
    intro h
    simp only [Buffer.is_empty, List.isEmpty_iff] at h
    simp [Buffer.len, h]
  have hne_of_full : s.buffer.is_full = true → s.buffer.is_empty = false := by
    intro hf
    cases he : s.buffer.is_empty
    · rfl
    · exfalso
      have h0 := hemp he
      simp only [Buffer.is_full, decide_eq_true_eq] at hf
      omega
  refine ⟨?_, ?_, ?_, ?_⟩
  · cases hf : s.buffer.is_full with
    | true =>
      have hne := hne_of_full hf
      unfold prefetch_policy
      rw [hf, hne]
      simpa using hlen
    | false =>
      have hlt := not_full_lt s.buffer hf
      cases he : s.buffer.is_empty with
      | true =>
        have h0 := hemp he
        unfold prefetch_policy
        rw [hf, he]
        cases hl : s.last_req with
        | none => simpa using hlen
        | some r =>
          simp only [Bool.not_false, Bool.not_true, Bool.false_and,
            Bool.true_and, if_false, Option.isSome_some, if_true]
          unfold prefetch_frame_with_request
          simp [Buffer.len_add, h0]
          omega
      | false =>
        unfold prefetch_policy
        rw [hf, he]
        simp only [Bool.not_false, Bool.and_self, if_true]
        exact le_trans (prefetch_frame_len cfg s (some default)) hlt
  · intro req
    simp only [handle_fetch_done]
    cases hf : (s.buffer.update_state req FrameStatus.decoding).is_full with
    | true =>
      simpa [Buffer.len_update_state] using hlen
    | false =>
      have hlt := not_full_lt _ hf
      rw [Buffer.len_update_state] at hlt
      simp only [Bool.not_false, if_true]
      exact le_trans
        (le_trans (prefetch_frame_len cfg _ req.camera_pos)
          (by rw [Buffer.len_update_state])) hlt
  · intro hf
    have hne := hne_of_full hf
    unfold prefetch_policy
    rw [hf, hne]
    simp
  · intro hf req
    simp only [handle_fetch_done]
    have hf2 : (s.buffer.update_state req FrameStatus.decoding).is_full = true := by
      rw [Buffer.is_full_update_state]
      exact hf
    rw [hf2]
    simp

/-! ### Concrete traces -/

def cadence_cfg : RunCfg := ⟨3, 2, fun _ => some ⟨7⟩, ⟨1⟩, none, false⟩

def cadence_trace : List BufMsg :=
  [BufMsg.frameRequest ⟨0, 0, none⟩,
   BufMsg.fetchDone ⟨0, 0, some ⟨9⟩⟩,
   BufMsg.pointCloud ⟨0, 0, none⟩ [100, 101],
   BufMsg.frameRequest ⟨0, 1, none⟩,
   BufMsg.frameRequest ⟨0, 2, none⟩,
   BufMsg.fetchDone ⟨0, 2, some ⟨9⟩⟩,
   BufMsg.pointCloud ⟨0, 2, none⟩ [102, 103],
   BufMsg.frameRequest ⟨0, 0, none⟩]

theorem buffer_exceeds_capacity_on_cache_miss :
    (process_trace cadence_cfg (init_outcome 2) cadence_trace).state.buffer.capacity
      = 2 ∧
    (process_trace cadence_cfg (init_outcome 2) cadence_trace).state.buffer.len
      = 3 ∧
    ¬ (3 ≤ 2) ∧
    (process_trace cadence_cfg (init_outcome 2) cadence_trace).cadenced = true ∧
    (process_trace cadence_cfg (init_outcome 2) cadence_trace).aborted = false := by
  refine ⟨by decide, by decide, by decide, by decide, by decide⟩

def halffull_state : BMState :=
  ⟨none, ⟨[⟨⟨0, 5, none⟩, FrameStatus.fetching⟩], 2⟩, false, none, [], 0, []⟩

theorem prefetch_paths_respect_capacity_witness :
    0 < halffull_state.buffer.capacity ∧
    halffull_state.buffer.len ≤
      halffull_state.buffer.capacity ∧
    ((prefetch_policy w7cfg halffull_state).state.buffer.len ≤
      halffull_state.buffer.capacity ∧
    (∀ req, (handle_fetch_done w7cfg halffull_state req).state.buffer.len ≤
      halffull_state.buffer.capacity) ∧
    (halffull_state.buffer.is_full = true →
      (prefetch_policy w7cfg halffull_state).fetches = []) ∧
    (halffull_state.buffer.is_full = true →
      ∀ req, (handle_fetch_done w7cfg halffull_state req).fetches = [])) :=
  ⟨by decide, by decide,
    prefetch_paths_respect_capacity w7cfg halffull_state
      (by decide) (by decide)⟩

def single_segment_cfg : RunCfg := ⟨30, 1, fun _ => some ⟨7⟩, ⟨1⟩, none, false⟩

def single_segment_trace : List BufMsg :=
  [BufMsg.frameRequest ⟨0, 0, none⟩, BufMsg.pointCloud ⟨0, 0, none⟩ [100]]

theorem zero_remaining_ready_entry_cached :
    (process_trace single_segment_cfg (init_outcome 4) single_segment_trace).state.buffer.entries
      = [⟨⟨0, 1, none⟩, FrameStatus.ready 0 []⟩,
         ⟨⟨0, 1, some ⟨0⟩⟩, FrameStatus.fetching⟩] ∧
    (process_trace single_segment_cfg (init_outcome 4) single_segment_trace).replies.length
      = 1 := by
  refine ⟨by decide, by decide⟩

/-! ### Reply bookkeeping lemmas -/

theorem prefetch_frame_silent (cfg : RunCfg) (s : BMState)
    (cam : Option CameraPosition) :
    (prefetch_frame cfg s cam).replies = [] ∧
    (prefetch_frame cfg s cam).state.frame_to_answer = s.frame_to_answer := by
  unfold prefetch_frame
  cases cam with
  | none => exact ⟨rfl, rfl⟩
  | some c =>
    cases hb : s.buffer.back? with
    | none => exact ⟨rfl, rfl⟩
    | some e => exact ⟨rfl, rfl⟩

theorem prefetch_frame_with_request_silent (cfg : RunCfg) (s : BMState)
    (cam : Option CameraPosition) (r : FrameRequest) :
    (prefetch_frame_with_request cfg s cam r).replies = [] ∧
    (prefetch_frame_with_request cfg s cam r).state.frame_to_answer =
      s.frame_to_answer := by
  unfold prefetch_frame_with_request
  cases cam with
  | none => exact ⟨rfl, rfl⟩
  | some c => exact ⟨rfl, rfl⟩

theorem prefetch_policy_silent (cfg : RunCfg) (s : BMState) :
    (prefetch_policy cfg s).replies = [] ∧
    (prefetch_policy cfg s).state.frame_to_answer = s.frame_to_answer := by
  unfold prefetch_policy
  split
  · exact prefetch_frame_silent cfg s (some default)
  · split
    · split
      · exact prefetch_frame_with_request_silent cfg s (some default) _
      · exact ⟨rfl, rfl⟩
    · exact ⟨rfl, rfl⟩

theorem handle_fetch_done_silent (cfg : RunCfg) (s : BMState)
    (req : FrameRequest) :
    (handle_fetch_done cfg s req).replies = [] ∧
    (handle_fetch_done cfg s req).state.frame_to_answer = s.frame_to_answer := by
  simp only [handle_fetch_done]
  split
  · exact prefetch_frame_silent cfg _ req.camera_pos
  · exact ⟨rfl, rfl⟩

theorem handle_point_cloud_match (cfg : RunCfg) (s : BMState)
    (meta0 fta0 : FrameRequest) (pc : PCFrame) (rest : List PCFrame)
    (hf : s.frame_to_answer = some fta0)
    (hm : meta0.frame_offset = fta0.frame_offset) :
    (handle_point_cloud cfg s meta0 (pc :: rest)).replies = [(fta0, pc)] ∧
    (handle_point_cloud cfg s meta0 (pc :: rest)).state.frame_to_answer = none ∧
    (handle_point_cloud cfg s meta0 (pc :: rest)).aborted = false := by
  unfold handle_point_cloud
  rw [hf]
  simp [hm]

theorem handle_point_cloud_match_closed (cfg : RunCfg) (s : BMState)
    (meta0 fta0 : FrameRequest)
    (hf : s.frame_to_answer = some fta0)
    (hm : meta0.frame_offset = fta0.frame_offset) :
    (handle_point_cloud cfg s meta0 []).replies = [] ∧
    (handle_point_cloud cfg s meta0 []).state.frame_to_answer = some fta0 ∧
    (handle_point_cloud cfg s meta0 []).aborted = true := by
  unfold handle_point_cloud
  rw [hf]
  simp [hm, hf]

theorem handle_point_cloud_nomatch (cfg : RunCfg) (s : BMState)
    (meta0 : FrameRequest) (stream : List PCFrame)
    (h : ∀ fta0, s.frame_to_answer = some fta0 →
      meta0.frame_offset ≠ fta0.frame_offset) :
    (handle_point_cloud cfg s meta0 stream).replies = [] ∧
    (handle_point_cloud cfg s meta0 stream).state.frame_to_answer =
      s.frame_to_answer ∧
    (handle_point_cloud cfg s meta0 stream).aborted = false := by
  unfold handle_point_cloud
  cases hf : s.frame_to_answer with
  | none => simp
  | some fta0 =>
    have := h fta0 hf
    simp [this, hf]

theorem handle_frame_request_spec (cfg : RunCfg) (s : BMState)
    (req0 : FrameRequest) :
    ((handle_frame_request cfg s req0).replies = [] ∧
     (handle_frame_request cfg s req0).aborted = true ∧
     (handle_frame_request cfg s req0).state.frame_to_answer =
       s.frame_to_answer) ∨
    (∃ rr pc, (handle_frame_request cfg s req0).replies = [(rr, pc)] ∧
      rr.frame_offset = req0.frame_offset ∧
      (handle_frame_request cfg s req0).state.frame_to_answer = none) ∨
    ((handle_frame_request cfg s req0).replies = [] ∧
     (handle_frame_request cfg s req0).aborted = false ∧
     ∃ rr, (handle_frame_request cfg s req0).state.frame_to_answer = some rr ∧
       rr.frame_offset = req0.frame_offset) := by
  have hfta := pose_resolve_fta cfg s req0
  have hoff := pose_resolve_offset cfg s req0
  unfold handle_frame_request
  dsimp only
  cases hfr : (pose_resolve cfg s req0).1.buffer.front? with
  | none =>
    right; right
    exact ⟨rfl, rfl, (pose_resolve cfg s req0).2, rfl, hoff⟩
  | some front =>
    dsimp only
    by_cases hoffe :
        front.req.frame_offset = (pose_resolve cfg s req0).2.frame_offset
    · rw [if_pos hoffe]
      cases hst : front.state with
      | fetching =>
        right; right
        exact ⟨rfl, rfl, (pose_resolve cfg s req0).2, rfl, hoff⟩
      | decoding =>
        right; right
        exact ⟨rfl, rfl, (pose_resolve cfg s req0).2, rfl, hoff⟩
      | ready n stream =>
        cases stream with
        | nil =>
          left
          exact ⟨rfl, rfl, hfta⟩
        | cons pc rest =>
          right; left
          dsimp only
          refine ⟨if cfg.camera_trace.isNone then
              { (pose_resolve cfg s req0).2 with camera_pos := none }
            else (pose_resolve cfg s req0).2, pc, ?_, ?_, ?_⟩
          · split
            · rfl
            · split
              · rfl
              · rfl
          · split <;> simpa using hoff
          · split
            · rfl
            · split
              · exact (prefetch_frame_silent cfg _ _).2
              · rfl
    · rw [if_neg hoffe]
      right; right
      exact ⟨rfl, rfl, (pose_resolve cfg s req0).2, rfl, hoff⟩

theorem replyOffsets_append (l1 l2 : List (FrameRequest × PCFrame)) :
    replyOffsets (l1 ++ l2) = replyOffsets l1 ++ replyOffsets l2 := by
  simp [replyOffsets]

theorem replyOffsets_nil : replyOffsets [] = [] := rfl

/-- Reply/request bookkeeping of the coordination loop: while no panic has
occurred, either no answer is pending and the replies emitted so far answer
exactly the renderer requests seen so far, in order, or one answer is
pending and the replies answer all requests but the pending one; after a
panic the replies are an initial segment of the requests. -/
def answers_in_order (o : Outcome) : Prop :=
  (o.aborted = false →
    (o.state.frame_to_answer = none ∧ replyOffsets o.replies = o.reqsSeen) ∨
    (∃ r, o.state.frame_to_answer = some r ∧
      o.reqsSeen = replyOffsets o.replies ++ [r.frame_offset])) ∧
  (o.aborted = true →
    replyOffsets o.replies = o.reqsSeen.take (replyOffsets o.replies).length)

/-- The bookkeeping invariant, conditioned on every renderer request having
arrived while no answer was pending. -/
def GoodAcc (o : Outcome) : Prop := o.cadenced = true → answers_in_order o

theorem invariant_to_take (o : Outcome) (h : answers_in_order o)
    (ha : o.aborted = false) :
    replyOffsets o.replies = o.reqsSeen.take (replyOffsets o.replies).length := by
  rcases h.1 ha with ⟨_, hrep⟩ | ⟨r, _, hreq⟩
  · rw [hrep]
    exact (List.take_length _).symm
  · rw [hreq]
    exact (List.take_left _ _).symm

theorem good_step (cfg : RunCfg) (o : Outcome) (msg : BufMsg)
    (hg : GoodAcc o) : GoodAcc (step_outcome cfg o msg) := by
  by_cases ho : o.aborted = true
  · simpa [step_outcome, ho] using hg
  · have ho2 : o.aborted = false := by
      cases h : o.aborted
      · rfl
      · exact absurd h ho
    have psil := prefetch_policy_silent cfg o.state
    unfold step_outcome
    rw [ho2]
    simp only [Bool.false_eq_true, if_false]
    by_cases hpa : (prefetch_policy cfg o.state).aborted = true
    · rw [if_pos hpa]
      intro hcad
      dsimp only [GoodAcc] at hg
      have hinv := hg hcad
      constructor
      · intro hab
        exact absurd hab (by simp)
      · intro _
        exact invariant_to_take o hinv ho2
    · rw [if_neg hpa]
      cases msg with
      | frameRequest req =>
        dsimp only
        intro hcad
        rcases Bool.and_eq_true _ _ |>.mp hcad with ⟨hc, hn⟩
        have hftanone : o.state.frame_to_answer = none := by
          rw [psil.2] at hn
          exact Option.isNone_iff_eq_none.mp hn
        have hinv := hg hc
        have hrep : replyOffsets o.replies = o.reqsSeen := by
          rcases hinv.1 ho2 with ⟨_, h⟩ | ⟨r, hr, _⟩
          · exact h
          · rw [hftanone] at hr
            exact absurd hr (by simp)
        have hpfta : (prefetch_policy cfg o.state).state.frame_to_answer = none := by
          rw [psil.2]
          exact hftanone
        rcases handle_frame_request_spec cfg (prefetch_policy cfg o.state).state req
          with ⟨h1, h2, h3⟩ | ⟨rr, pc, h1, h2, h3⟩ | ⟨h1, h2, rr, h3, h4⟩
        · constructor
          · intro hab
            rw [h2] at hab
            exact absurd hab (by simp)
          · intro _
            rw [replyOffsets_append, h1, replyOffsets_nil, List.append_nil, hrep]
            exact (List.take_left _ _).symm
        · constructor
          · intro _
            left
            refine ⟨h3, ?_⟩
            rw [replyOffsets_append, hrep, h1]
            simp [replyOffsets, h2]
          · intro _
            have hfull : replyOffsets (o.replies ++ [(rr, pc)]) =
                o.reqsSeen ++ [req.frame_offset] := by
              rw [replyOffsets_append, hrep]
              simp [replyOffsets, h2]
            rw [h1, hfull]
            exact (List.take_length _).symm
        · constructor
          · intro _
            right
            refine ⟨rr, h3, ?_⟩
            dsimp only
            rw [replyOffsets_append, h1, replyOffsets_nil, List.append_nil, hrep,
              h4]
          · intro hab
            rw [h2] at hab
            exact absurd hab (by simp)
      | fetchDone req =>
        dsimp only
        intro hcad
        have hinv := hg hcad
        have hsil := handle_fetch_done_silent cfg (prefetch_policy cfg o.state).state req
        constructor
        · intro hab
          dsimp only
          rw [replyOffsets_append, hsil.1, replyOffsets_nil, List.append_nil,
            hsil.2, psil.2]
          rcases hinv.1 ho2 with ⟨hf, hr⟩ | ⟨r, hf, hr⟩
          · exact Or.inl ⟨hf, hr⟩
          · exact Or.inr ⟨r, hf, hr⟩
        · intro _
          rw [replyOffsets_append, hsil.1, replyOffsets_nil, List.append_nil]
          exact invariant_to_take o hinv ho2
      | pointCloud meta stream =>
        dsimp only
        intro hcad
        have hinv := hg hcad
        by_cases hmatch : ∃ fta0,
            (prefetch_policy cfg o.state).state.frame_to_answer = some fta0 ∧
            meta.frame_offset = fta0.frame_offset
        · rcases hmatch with ⟨fta0, hf, hm⟩
          have hof : o.state.frame_to_answer = some fta0 := by
            rw [← psil.2]
            exact hf
          have hreq : o.reqsSeen = replyOffsets o.replies ++ [fta0.frame_offset] := by
            rcases hinv.1 ho2 with ⟨hn, _⟩ | ⟨r, hr, hq⟩
            · rw [hof] at hn
              exact absurd hn (by simp)
            · rw [hof] at hr
              injection hr with hr
              rw [hr]
              exact hq
          cases stream with
          | nil =>
            have hcl := handle_point_cloud_match_closed cfg
              (prefetch_policy cfg o.state).state meta fta0 hf hm
            constructor
            · intro hab
              rw [hcl.2.2] at hab
              exact absurd hab (by simp)
            · intro _
              rw [replyOffsets_append, hcl.1, replyOffsets_nil, List.append_nil,
                hreq]
              exact (List.take_left _ _).symm
          | cons pc rest =>
            have hok := handle_point_cloud_match cfg
              (prefetch_policy cfg o.state).state meta fta0 pc rest hf hm
            constructor
            · intro _
              left
              refine ⟨hok.2.1, ?_⟩
              rw [replyOffsets_append, hok.1, hreq]
              simp [replyOffsets]
            · intro hab
              rw [hok.2.2] at hab
              exact absurd hab (by simp)
        · have hnm : ∀ fta0,
              (prefetch_policy cfg o.state).state.frame_to_answer = some fta0 →
              meta.frame_offset ≠ fta0.frame_offset := by
            intro fta0 hf hm
            exact hmatch ⟨fta0, hf, hm⟩
          have hsil := handle_point_cloud_nomatch cfg
            (prefetch_policy cfg o.state).state meta stream hnm
          constructor
          · intro _
            dsimp only
            rw [replyOffsets_append, hsil.1, replyOffsets_nil, List.append_nil,
              hsil.2.1, psil.2]
            rcases hinv.1 ho2 with ⟨hf, hr⟩ | ⟨r, hf, hr⟩
            · exact Or.inl ⟨hf, hr⟩
            · exact Or.inr ⟨r, hf, hr⟩
          · intro _
            rw [replyOffsets_append, hsil.1, replyOffsets_nil, List.append_nil]
            exact invariant_to_take o hinv ho2

theorem good_process_trace (cfg : RunCfg) (trace : List BufMsg) (o : Outcome)
    (hg : GoodAcc o) : GoodAcc (process_trace cfg o trace) := by
  induction trace generalizing o with
  | nil => exact hg
  | cons m ms ih => exact ih (step_outcome cfg o m) (good_step cfg o m hg)

theorem good_init (buffer_size : Nat) : GoodAcc (init_outcome buffer_size) := by
  intro _
  constructor
  · intro _
    left
    exact ⟨rfl, rfl⟩
  · intro h
    exact Bool.noConfusion h

theorem replies_take_form (cfg : RunCfg) (trace : List BufMsg)
    (buffer_size : Nat)
    (hcad : (process_trace cfg (init_outcome buffer_size) trace).cadenced = true) :
    replyOffsets (process_trace cfg (init_outcome buffer_size) trace).replies =
      (process_trace cfg (init_outcome buffer_size) trace).reqsSeen.take
        (replyOffsets
          (process_trace cfg (init_outcome buffer_size) trace).replies).length := by
  have hinv := good_process_trace cfg trace (init_outcome buffer_size)
    (good_init buffer_size) hcad
  cases ha : (process_trace cfg (init_outcome buffer_size) trace).aborted with
  | true => exact hinv.2 ha
  | false => exact invariant_to_take _ hinv ha

/-- C1: over any run of `BufferManager::run` in which every renderer request
arrives while no answer is pending (`cadenced`), the buffer is never found
drained at a renderer request after the first reply, and the renderer
requests are issued at the nominal playback cadence — consecutive frame
offsets modulo `total_frames` starting at `start` — the frame offsets of the
replies sent on the renderer reply channel are exactly the consecutive
offsets `start, start+1, ...` modulo `total_frames`: non-decreasing modulo
`total_frames`, with no repeats and no gaps. -/
theorem renderer_replies_consecutive (cfg : RunCfg) (trace : List BufMsg)
    (buffer_size start m : Nat)
    (hcad : (process_trace cfg (init_outcome buffer_size) trace).cadenced = true)
    (_hdrain :
      (process_trace cfg (init_outcome buffer_size) trace).drained = false)
    (hreq : (process_trace cfg (init_outcome buffer_size) trace).reqsSeen =
      (List.range m).map (fun j => (start + j) % cfg.total_frames)) :
    replyOffsets (process_trace cfg (init_outcome buffer_size) trace).replies =
      (List.range (replyOffsets
        (process_trace cfg (init_outcome buffer_size) trace).replies).length).map
        (fun j => (start + j) % cfg.total_frames) := by
  have htake := replies_take_form cfg trace buffer_size hcad
  rw [hreq] at htake
  rw [htake, ← List.map_take, List.take_range]
  simp

/-- Witness for `renderer_replies_consecutive` on a concrete 8-message run
(capacity 2, total_frames 3, segment_size 2) whose renderer requests are
0, 1, 2, 0 and whose replies are 0, 1, 2. -/
theorem renderer_replies_consecutive_witness :
    (process_trace cadence_cfg (init_outcome 2) cadence_trace).cadenced = true ∧
    (process_trace cadence_cfg (init_outcome 2) cadence_trace).drained = false ∧
    (process_trace cadence_cfg (init_outcome 2) cadence_trace).reqsSeen =
      (List.range 4).map (fun j => (0 + j) % cadence_cfg.total_frames) ∧
    replyOffsets
        (process_trace cadence_cfg (init_outcome 2) cadence_trace).replies =
      (List.range (replyOffsets
        (process_trace cadence_cfg (init_outcome 2) cadence_trace).replies).length).map
        (fun j => (0 + j) % cadence_cfg.total_frames) :=
  ⟨by decide, by decide, by decide,
    renderer_replies_consecutive cadence_cfg cadence_trace 2 0 4 (by decide)
      (by decide) (by decide)⟩
